import Mathlib

/-
  Verification development for the storage/concurrency core of the
  cmu15-445 repository: LRU replacer, extendible hash table, B+ tree
  index and lock manager.

  Each C++ component is shallowly embedded as executable Lean
  definitions translated from the source files
  (src/project/src/buffer/lru_replacer.cpp,
   src/project/src/include/index/index_iterator.h (extendible hash and
   index iterator implementations),
   src/project/src/index/b_plus_tree.cpp,
   src/project/src/concurrency/lock_manager.cpp).
  C++ machine integers are modelled as Nat/Int; page ids as Int with
  INVALID_PAGE_ID = -1; nullable pointers as Option; undefined
  behaviour (null dereference, reinterpret_cast type confusion,
  non-terminating loops) as a "none" result of an Option-returning
  function.
-/

set_option autoImplicit false

namespace Cmudb

/-! ## LRU replacer (src/project/src/buffer/lru_replacer.cpp)

The doubly linked list with sentinel head and tail pointer is modelled
by the list of its node values from LRU end (head side) to MRU end
(tail side), plus the separately maintained size counter, exactly as
the C++ code maintains them.  The side table `table_` holds exactly the
values in the list, so membership tests on the list model table lookups.

Two pointer defects of the source must be carried by the model:
  * the unlink sequence pre->next = move(cur->next); pre->next->pre
    dereferences a null unique_ptr when the unlinked node is the tail
    (Insert of a present value / Erase);
  * Victim relinks head_->next past the popped node but never repairs
    the new head node's pre pointer, which keeps pointing at the freed
    node; the field headStale records that the current head node's pre
    is dangling.  A later Insert of the head value or Erase of the head
    value reads that dangling pre (use-after-free).
Both kinds of undefined behaviour are modelled as a none result. -/

structure LRU where
  lst : List Nat
  size : Nat
  headStale : Bool
deriving Repr, DecidableEq

namespace LRU

/-- Translation of LRUReplacer::Insert.  A new value is appended at the
tail (its pre is the live tail or the sentinel, so the head's pre state
is unchanged, and an empty list gets a clean head).  A value already
present is unlinked (repairing its successor's pre) and relinked at the
tail.  When the value is the tail node itself, the code executes
pre->next->pre with pre->next null (null unique_ptr dereference); when
the value is the head node left dangling by a Victim, it reads the
freed node through it->second->pre (use-after-free): both none. -/
def Insert (s : LRU) (v : Nat) : Option LRU :=
  if v ∈ s.lst then
    if s.headStale ∧ s.lst.head? = some v then
      none
    else if s.lst.getLast? = some v then
      none
    else
      some { s with lst := s.lst.erase v ++ [v] }
  else
    some { lst := s.lst ++ [v], size := s.size + 1
           headStale := if s.lst.isEmpty then false else s.headStale }

/-- Translation of LRUReplacer::Victim: pop the head (LRU-end) node.
The size counter, not the list, is tested for emptiness.  The source
(line 55) sets head_->next = move(head_->next->next) and never repairs
the surviving head node's pre pointer, so whenever a node survives, the
new head's pre dangles. -/
def Victim (s : LRU) : Option (Option Nat × LRU) :=
  if s.size = 0 then
    some (none, s)
  else
    match s.lst with
    | [] => none
    | x :: xs => some (some x, { lst := xs, size := s.size - 1, headStale := !xs.isEmpty })

/-- Translation of LRUReplacer::Erase.  Erasing the tail node executes
pre->next->pre with pre->next null; erasing the head node left
dangling by a Victim reads the freed node through it->second->pre:
both none. -/
def Erase (s : LRU) (v : Nat) : Option (Bool × LRU) :=
  if v ∈ s.lst then
    if s.headStale ∧ s.lst.head? = some v then
      none
    else if s.lst.getLast? = some v then
      none
    else
      some (true, { s with lst := s.lst.erase v, size := s.size - 1 })
  else
    some (false, s)

/-- Translation of LRUReplacer::Size. -/
def Size (s : LRU) : Nat := s.size

def empty : LRU := { lst := [], size := 0, headStale := false }

/-- Run a sequence of Insert calls (as the sample test does). -/
def insertAll (s : LRU) : List Nat → Option LRU
  | [] => some s
  | v :: vs => match s.Insert v with
    | none => none
    | some s1 => insertAll s1 vs

end LRU

/-! ## Lock manager (src/project/src/concurrency/lock_manager.cpp)

The source file contains two revisions of the lock manager; both are
embedded (suffix V1 for the first, V2 for the second).  Since every
operation works on the single wait queue lock_table_[rid], the model
takes that queue (Option Waiting: none when lock_table_.count(rid) == 0)
as explicit state.  Only the admission / bookkeeping part of the lock
calls is modelled; the condition-variable wait is concurrency and out
of scope of the claims below.
-/

inductive TransactionState where
  | GROWING
  | SHRINKING
  | COMMITTED
  | ABORTED
deriving Repr, DecidableEq

inductive LockMode where
  | SHARED
  | EXCLUSIVE
deriving Repr, DecidableEq

structure Request where
  txnId : Nat
  mode : LockMode
  granted : Bool
deriving Repr, DecidableEq

structure Waiting where
  list : List Request
  oldest : Nat
  exclusiveCnt : Nat
deriving Repr, DecidableEq

/-- Result of the admission phase of LockShared: either the transaction
is aborted (state set to ABORTED, false returned, nothing appended) or
its request is appended to the queue. -/
inductive Admission where
  | aborted
  | queued (q : Waiting)
deriving Repr, DecidableEq

/-- Translation of the admission part of LockManager::LockShared,
first revision (wait-die test requires an exclusive request present):
lines 10-35 of lock_manager.cpp.  The caller is required to be in
GROWING state (the code asserts it after the ABORTED early return). -/
def LockSharedAdmitV1 (txnId : Nat) (q : Option Waiting) : Admission :=
  let req : Request := { txnId := txnId, mode := LockMode.SHARED, granted := false }
  match q with
  | none => Admission.queued { list := [req], oldest := txnId, exclusiveCnt := 0 }
  | some w =>
    if w.exclusiveCnt ≠ 0 ∧ txnId > w.oldest then
      Admission.aborted
    else
      let w1 := if w.oldest > txnId then { w with oldest := txnId } else w
      Admission.queued { w1 with list := w1.list ++ [req] }

/-- Translation of the admission part of LockManager::LockShared,
second revision (wait-die test ignores the request modes): the txn
dies whenever the queue exists and txnId > oldest. -/
def LockSharedAdmitV2 (txnId : Nat) (q : Option Waiting) : Admission :=
  let req : Request := { txnId := txnId, mode := LockMode.SHARED, granted := false }
  match q with
  | none => Admission.queued { list := [req], oldest := txnId, exclusiveCnt := 0 }
  | some w =>
    if txnId > w.oldest then
      Admission.aborted
    else
      Admission.queued { w with oldest := txnId, list := w.list ++ [req] }

/-- Count of exclusive requests in a queue (the documented meaning of
the exclusive_cnt field). -/
def countExclusive (l : List Request) : Nat :=
  (l.filter (fun r => r.mode = LockMode.EXCLUSIVE)).length

/-- Removal loop of Unlock: erase the first request of the given
transaction, returning the new list, whether the removed one was at the
head, whether it was the last element, and its mode (none when no
request of the transaction is present, in which case the loop just
falls through). -/
def removeRequest (txnId : Nat) : List Request →
    Option (List Request × Bool × Bool × LockMode) × List Request
  | [] => (none, [])
  | r :: rest =>
    if r.txnId = txnId then
      (some (rest, true, rest.isEmpty, r.mode), rest)
    else
      match removeRequest txnId rest with
      | (none, _) => (none, r :: rest)
      | (some (l, _, lst, m), _) => (some (r :: l, false, lst, m), r :: l)

/-- Translation of LockManager::Unlock, first revision (lines 129-166).
Inputs: the strict_2PL_ flag, the transaction state, the transaction id
and the wait queue of the rid (which the code asserts to exist).
Output: (return value, new transaction state, new queue). -/
def UnlockV1 (strict2PL : Bool) (st : TransactionState) (txnId : Nat)
    (w : Waiting) : Bool × TransactionState × Waiting :=
  if strict2PL then
    if st ≠ TransactionState.COMMITTED ∨ st ≠ TransactionState.ABORTED then
      (false, TransactionState.ABORTED, w)
    else
      -- unreachable: the condition above is a tautology
      (true, st, w)
  else
    let st1 := if st = TransactionState.GROWING then TransactionState.SHRINKING else st
    match (removeRequest txnId w.list).1 with
    | none => (true, st1, w)
    | some (l, _first, _last, m) =>
      let cnt := if m = LockMode.EXCLUSIVE then w.exclusiveCnt - 1 else w.exclusiveCnt
      (true, st1, { w with list := l, exclusiveCnt := cnt })

/-- Translation of LockManager::Unlock, second revision (lines 291-332).
Differs from V1 in the bookkeeping after removal (oldest is updated
from the new back of the list when the removed request was last, and
exclusive_cnt is not decremented), but the strict-2PL check and the
GROWING to SHRINKING transition are identical. -/
def UnlockV2 (strict2PL : Bool) (st : TransactionState) (txnId : Nat)
    (w : Waiting) : Bool × TransactionState × Waiting :=
  if strict2PL then
    if st ≠ TransactionState.COMMITTED ∨ st ≠ TransactionState.ABORTED then
      (false, TransactionState.ABORTED, w)
    else
      (true, st, w)
  else
    let st1 := if st = TransactionState.GROWING then TransactionState.SHRINKING else st
    match (removeRequest txnId w.list).1 with
    | none => (true, st1, w)
    | some (l, _first, wasLast, _m) =>
      let w1 := { w with list := l }
      let w2 :=
        if wasLast ∧ ¬ l.isEmpty then
          match l.getLast? with
          | some r => { w1 with oldest := r.txnId }
          | none => w1
        else w1
      (true, st1, w2)

/-! ## Extendible hash table
(ExtendibleHash implementation in src/project/src/include/index/index_iterator.h)

The table is instantiated in the tests at K = int, V = int with
std::hash<int> the identity on non-negative values, so keys and values
are modelled as Nat and HashKey as the identity.  std::map<K,V> is
modelled as an association list sorted in ascending key order (matching
its iteration order).  The directory buckets_ holds shared_ptr values:
several slots may alias one bucket, and split mutates the bucket
through Insert's local alias.  The model therefore keeps a store of
bucket values and a directory of Option store-indices; pointer equality
of shared_ptr values is store-index equality.  unique_ptr overflow
chains are owned by their head bucket and flattened into a list. -/

/-- Model of std::map<int,int>::find. -/
def mapFind (k : Nat) : List (Nat × Nat) → Option Nat
  | [] => none
  | (a, v) :: rest => if a = k then some v else mapFind k rest

/-- Model of the overwrite items[key] = value on a present key. -/
def mapSet (k v : Nat) : List (Nat × Nat) → List (Nat × Nat)
  | [] => []
  | (a, w) :: rest => if a = k then (a, v) :: rest else (a, w) :: mapSet k v rest

/-- Model of std::map<int,int>::insert (keeps ascending key order, no
overwrite of a present key). -/
def mapIns (k v : Nat) : List (Nat × Nat) → List (Nat × Nat)
  | [] => [(k, v)]
  | (a, w) :: rest =>
    if k < a then (k, v) :: (a, w) :: rest
    else if k = a then (a, w) :: rest
    else (a, w) :: mapIns k v rest

/-- Model of std::map<int,int>::erase(key), returning the erased count. -/
def mapErase (k : Nat) : List (Nat × Nat) → List (Nat × Nat) × Nat
  | [] => ([], 0)
  | (a, w) :: rest =>
    if a = k then (rest, 1)
    else
      let (l, c) := mapErase k rest
      ((a, w) :: l, c)

/-- Overflow bucket: a bucket object living on a unique_ptr chain. -/
structure OvBucket where
  id : Nat
  depth : Nat
  items : List (Nat × Nat)
deriving Repr, DecidableEq

/-- Bucket: id, local depth, items, and its overflow chain. -/
structure Bucket where
  id : Nat
  depth : Nat
  items : List (Nat × Nat)
  ov : List OvBucket
deriving Repr, DecidableEq

/-- Extendible hash table state: bucket_size_, global depth,
bucket_count_, the bucket store (heap) and the directory of
store indices (none models a null shared_ptr slot). -/
structure EHash where
  bucketSize : Nat
  depth : Nat
  bucketCount : Nat
  store : List Bucket
  dir : List (Option Nat)
deriving Repr, DecidableEq

namespace EHash

/-- Model of ExtendibleHash::ExtendibleHash(size). -/
def init (size : Nat) : EHash :=
  { bucketSize := size, depth := 0, bucketCount := 1
    store := [{ id := 0, depth := 0, items := [], ov := [] }]
    dir := [some 0] }

/-- Model of ExtendibleHash::HashKey: std::hash<int> is the identity. -/
def HashKey (k : Nat) : Nat := k

/-- Model of ExtendibleHash::bucketIndex: hash & ((1 << depth) - 1). -/
def bucketIndex (s : EHash) (k : Nat) : Nat :=
  HashKey k % 2 ^ s.depth

/-- Model of ExtendibleHash::GetGlobalDepth. -/
def GetGlobalDepth (s : EHash) : Nat := s.depth

/-- Model of ExtendibleHash::GetLocalDepth: depth of the bucket at the
given directory slot, or -1 for a null slot. -/
def GetLocalDepth (s : EHash) (bucketId : Nat) : Int :=
  match s.dir.getD bucketId none with
  | none => -1
  | some bi =>
    match s.store.get? bi with
    | none => -1
    | some b => (b.depth : Int)

/-- Search of an overflow chain, as in the Find loop over bucket->next. -/
def findOv (k : Nat) : List OvBucket → Option Nat
  | [] => none
  | b :: rest =>
    match mapFind k b.items with
    | some v => some v
    | none => findOv k rest

/-- Model of ExtendibleHash::Find. -/
def Find (s : EHash) (k : Nat) : Option Nat :=
  match s.dir.getD (s.bucketIndex k) none with
  | none => none
  | some bi =>
    match s.store.get? bi with
    | none => none
    | some b =>
      match mapFind k b.items with
      | some v => some v
      | none => findOv k b.ov

/-- Model of ExtendibleHash::Remove: erase the key from the indexed
bucket and its whole overflow chain; true iff something was erased. -/
def Remove (s : EHash) (k : Nat) : Bool × EHash :=
  match s.dir.getD (s.bucketIndex k) none with
  | none => (false, s)
  | some bi =>
    match s.store.get? bi with
    | none => (false, s)
    | some b =>
      let (items1, c1) := mapErase k b.items
      let step := fun (acc : List OvBucket × Nat) (o : OvBucket) =>
        let (l, c) := mapErase k o.items
        (acc.1 ++ [{ o with items := l }], acc.2 + c)
      let (ov1, c2) := b.ov.foldl step ([], 0)
      let b1 := { b with items := items1, ov := ov1 }
      (c1 + c2 ≠ 0, { s with store := s.store.set bi b1 })

/-- One iteration of the split redistribution loop: increment the
depth, partition the items of b by the new top hash bit (moved items go
to res, whose id is rewritten to the masked hash of each moved item, so
ends at the last moved one), and swap if b would become empty.
Returns (updated b, res id, res items). -/
def splitStep (b : Bucket) (resId : Nat) : Bucket × Nat × List (Nat × Nat) :=
  let d := b.depth + 1
  let moved := b.items.filter (fun kv => HashKey kv.1 / 2 ^ (d - 1) % 2 = 1)
  let stay := b.items.filter (fun kv => ¬ (HashKey kv.1 / 2 ^ (d - 1) % 2 = 1))
  let rid :=
    match moved.getLast? with
    | some kv => HashKey kv.1 % 2 ^ d
    | none => resId
  if stay.isEmpty then
    ({ b with depth := d, id := rid, items := moved }, rid, [])
  else
    ({ b with depth := d, items := stay }, rid, moved)

/-- The while (res->items.empty()) loop of ExtendibleHash::split.  The
C++ loop can run forever (the break tests b->depth == sizeof(size_t),
i.e. 8, with ==, which a depth that entered at 8 or more never meets
again): fuel models that, none meaning non-termination. -/
def splitLoop : Nat → Bucket → Nat → Option (Bucket × Nat × List (Nat × Nat))
  | 0, _, _ => none
  | fuel + 1, b, resId =>
    let (b1, rid, resItems) := splitStep b resId
    if resItems.isEmpty then
      if b1.depth = 8 then some (b1, rid, [])
      else splitLoop fuel b1 rid
    else some (b1, rid, resItems)

/-- Model of ExtendibleHash::split.  Returns the updated main bucket
(with the overflow bucket attached at the end of its chain when the
final local depth equals sizeof(size_t) = 8) and the companion bucket
when one is returned (nullptr in the overflow case). -/
def split (b : Bucket) : Option (Bucket × Option OvBucket) :=
  match splitLoop 64 b 0 with
  | none => none
  | some (b1, rid, resItems) =>
    if b1.depth = 8 then
      some ({ b1 with ov := b1.ov ++ [{ id := rid, depth := b1.depth, items := resItems }] }, none)
    else
      some (b1, some { id := rid, depth := b1.depth, items := resItems })

/-- Directory copy loop of ExtendibleHash::Insert after resize: for
every old slot not holding the split bucket, copy its pointer to all
new slots congruent to it modulo the old size. -/
def copyLoop (oldSize : Nat) (bi : Nat) (dir : List (Option Nat)) : List (Option Nat) :=
  (List.range oldSize).foldl
    (fun d i =>
      if d.getD i none = some bi then d
      else
        let v := d.getD i none
        ((List.range (d.length / oldSize)).drop 1).foldl
          (fun d2 m => d2.set (i + m * oldSize) v) d)
    dir

/-- Model of ExtendibleHash::Insert.  Returns none when the C++ code
would not terminate (split loop) or would read out of range. -/
def Insert (s : EHash) (k v : Nat) : Option EHash :=
  let bucketId := s.bucketIndex k
  let lazy :=
    match s.dir.getD bucketId none with
    | some bi => (s, bi)
    | none =>
      let nb : Bucket := { id := bucketId, depth := s.depth, items := [], ov := [] }
      let bi := s.store.length
      ({ s with store := s.store ++ [nb]
                dir := s.dir.set bucketId (some bi)
                bucketCount := s.bucketCount + 1 }, bi)
  let s0 := lazy.1
  let bi := lazy.2
  match s0.store.get? bi with
  | none => none
  | some bucket =>
    if (mapFind k bucket.items).isSome then
      some { s0 with store := s0.store.set bi { bucket with items := mapSet k v bucket.items } }
    else
      let bucket1 := { bucket with items := mapIns k v bucket.items }
      let s1 := { s0 with store := s0.store.set bi bucket1 }
      if bucket1.items.length > s1.bucketSize then
        match split bucket1 with
        | none => none
        | some (b2, newb) =>
          let s2 := { s1 with store := s1.store.set bi b2
                              bucketCount := s1.bucketCount + 1 }
          match newb with
          | none => some s2
          | some nb =>
            let s3 :=
              if b2.depth > s2.depth then
                let oldSize := s2.dir.length
                let factor := 2 ^ (b2.depth - s2.depth)
                let dirR := s2.dir ++ List.replicate (oldSize * factor - oldSize) none
                let dirC := copyLoop oldSize bi dirR
                let dirF :=
                  if b2.id ≠ bucketId then
                    (dirC.set bucketId none).set b2.id (some bi)
                  else dirC
                { s2 with depth := b2.depth, dir := dirF }
              else s2
            let nbi := s3.store.length
            some { s3 with
                     store := s3.store ++ [{ id := nb.id, depth := nb.depth, items := nb.items, ov := [] }]
                     dir := s3.dir.set nb.id (some nbi) }
      else some s1

/-- Run a sequence of (key, value) Insert calls. -/
def insertAll (s : EHash) : List (Nat × Nat) → Option EHash
  | [] => some s
  | (k, v) :: rest =>
    match s.Insert k v with
    | none => none
    | some s1 => insertAll s1 rest

end EHash

/-! ## B+ tree index (src/project/src/index/b_plus_tree.cpp)

The tree works on pages held by the buffer pool.  Pages are modelled as
a sum of leaf and internal page contents (the 24-byte header fields
that the tree uses: parent_page_id, max_size/size, and for leaves
next_page_id); the buffer pool as an association list page_id -> page
plus the multiset of outstanding pins (a List Int: FetchPage/NewPage
push the page id, UnpinPage removes one occurrence) and the next fresh
page id.  Keys and values are Nat, page ids Int, INVALID_PAGE_ID = -1.

The page-level primitives (B_PLUS_TREE_LEAF_PAGE / INTERNAL_PAGE
methods) are implemented in page/*.cpp, which is not part of the
sources here; they are modelled from the spec, as marked on each
definition.  The tree-level functions are translated from
b_plus_tree.cpp.  reinterpret_cast type confusion (calling an internal
page method on a leaf page or vice versa) is undefined behaviour,
modelled as a none result. -/

def INVALID_PAGE_ID : Int := -1

def HEADER_PAGE_ID : Int := 0

inductive BPage where
  | leaf (parentId : Int) (maxSize : Nat) (entries : List (Nat × Nat)) (nextId : Int)
  | internal (parentId : Int) (maxSize : Nat) (entries : List (Nat × Int))
deriving Repr, DecidableEq

namespace BPage

def IsLeafPage : BPage → Bool
  | leaf _ _ _ _ => true
  | internal _ _ _ => false

def GetParentPageId : BPage → Int
  | leaf p _ _ _ => p
  | internal p _ _ => p

/-- Modelled from the spec: IsRootPage holds iff parent_page_id is
INVALID_PAGE_ID. -/
def IsRootPage (p : BPage) : Bool :=
  p.GetParentPageId = INVALID_PAGE_ID

def GetSize : BPage → Nat
  | leaf _ _ e _ => e.length
  | internal _ _ e => e.length

def GetMaxSize : BPage → Nat
  | leaf _ m _ _ => m
  | internal _ m _ => m

def setParent (newParent : Int) : BPage → BPage
  | leaf _ m e n => leaf newParent m e n
  | internal _ m e => internal newParent m e

end BPage

structure BPool where
  pages : List (Int × BPage)
  pins : List Int
  nextId : Int
deriving Repr, DecidableEq

namespace BPool

def lookup (p : BPool) (pid : Int) : Option BPage :=
  (p.pages.find? (fun q => q.1 = pid)).map Prod.snd

/-- FetchPage: pin the page and return it; none models a nullptr
result (page absent / no frame). -/
def fetch (p : BPool) (pid : Int) : Option (BPool × BPage) :=
  match p.lookup pid with
  | none => none
  | some pg => some ({ p with pins := pid :: p.pins }, pg)

/-- UnpinPage(pid, is_dirty): drop one pin on the page.  The dirty flag
has no observable effect in this model. -/
def unpin (p : BPool) (pid : Int) (_dirty : Bool) : BPool :=
  { p with pins := p.pins.erase pid }

/-- In-place mutation of a pinned page (the tree writes through the
pointer returned by FetchPage/NewPage). -/
def write (p : BPool) (pid : Int) (pg : BPage) : BPool :=
  { p with pages := p.pages.map (fun q => if q.1 = pid then (pid, pg) else q) }

/-- NewPage: allocate a fresh page id, install the given initial
contents, pin it. -/
def newPage (p : BPool) (pg : BPage) : BPool × Int :=
  ({ pages := p.pages ++ [(p.nextId, pg)]
     pins := p.nextId :: p.pins
     nextId := p.nextId + 1 }, p.nextId)

end BPool

/-- Tree-level state: the buffer pool, root_page_id_, and the max_size
used when formatting new internal pages. -/
structure BTree where
  pool : BPool
  rootId : Int
  internalMax : Nat
deriving Repr, DecidableEq

/-- Modelled from the spec: leaf lookup(k) is a binary search over the
strictly increasing key array; equivalent to association lookup. -/
def leafLookup (entries : List (Nat × Nat)) (k : Nat) : Option Nat :=
  (entries.find? (fun kv => kv.1 = k)).map Prod.snd

/-- Modelled from the spec: leaf insert(k, v) keeps the array sorted
(insert before the first key that is not smaller; duplicates are the
higher layer's responsibility and end up stored ahead of the old
entry). -/
def leafInsert (k : Nat) (v : Nat) : List (Nat × Nat) → List (Nat × Nat)
  | [] => [(k, v)]
  | (a, w) :: rest =>
    if k ≤ a then (k, v) :: (a, w) :: rest
    else (a, w) :: leafInsert k v rest

def internalLookupGo (k : Nat) (acc : Int) : List (Nat × Int) → Int
  | [] => acc
  | (key, c) :: t => if key ≤ k then internalLookupGo k c t else acc

/-- Modelled from the spec: internal lookup(k) returns the child whose
subtree would contain k: the value of the largest key that is at most
k, or the first (sentinel) slot's child when k is below key[1]. -/
def internalLookup (entries : List (Nat × Int)) (k : Nat) : Int :=
  match entries with
  | [] => INVALID_PAGE_ID
  | (_, c0) :: rest => internalLookupGo k c0 rest

/-- Modelled from the spec: insert_node_after(old, key, new) places the
(key, new) entry immediately after the entry whose value is old. -/
def insertNodeAfter (oldId : Int) (key : Nat) (newId : Int) :
    List (Nat × Int) → List (Nat × Int)
  | [] => []
  | (a, c) :: rest =>
    if c = oldId then (a, c) :: (key, newId) :: rest
    else (a, c) :: insertNodeAfter oldId key newId rest

/-- Modelled from the spec: move_half_to keeps the lower ceil(n/2)
entries and transfers the upper half to the initially empty sibling. -/
def splitEntries {α : Type} (entries : List α) : List α × List α :=
  let keep := (entries.length + 1) / 2
  (entries.take keep, entries.drop keep)

/-- Reparenting loop of the internal move_half_to: every moved child is
fetched, its parent_page_id set to the destination, and unpinned dirty.
Modelled from the spec. -/
def reparentAll (pool : BPool) (dstId : Int) : List (Nat × Int) → Option BPool
  | [] => some pool
  | (_, c) :: rest =>
    match pool.fetch c with
    | none => none
    | some (pool1, pg) =>
      let pool2 := pool1.write c (pg.setParent dstId)
      let pool3 := pool2.unpin c true
      reparentAll pool3 dstId rest

/-- Translation of BPlusTree::UpdateRootPageId: fetch the header page,
insert or update the (index_name, root_page_id) record, unpin dirty.
Only the pin effect is modelled (header page contents are outside the
claims). -/
def updateRootPageId (pool : BPool) : BPool :=
  let pool1 := { pool with pins := HEADER_PAGE_ID :: pool.pins }
  pool1.unpin HEADER_PAGE_ID true

/-- Translation of BPlusTree::Split for a leaf node: NewPage for the
right sibling, then move_half_to (upper half of the entries; the
sibling chain is relinked as self.next = sibling, sibling.next =
old next).  Returns the sibling id and its contents. -/
def splitLeaf (pool : BPool) (leafId : Int) (parent : Int) (maxSize : Nat)
    (entries : List (Nat × Nat)) (next : Int) :
    BPool × Int × List (Nat × Nat) × List (Nat × Nat) :=
  let (lo, hi) := splitEntries entries
  let (pool1, newId) := pool.newPage (BPage.leaf parent maxSize hi next)
  let pool2 := pool1.write leafId (BPage.leaf parent maxSize lo newId)
  (pool2, newId, lo, hi)

/-- Translation of BPlusTree::Split for an internal node: NewPage for
the right sibling, move_half_to transfers the upper half and reparents
the moved children. -/
def splitInternal (pool : BPool) (nodeId : Int) (parent : Int) (maxSize : Nat)
    (entries : List (Nat × Int)) :
    Option (BPool × Int × List (Nat × Int) × List (Nat × Int)) :=
  let (lo, hi) := splitEntries entries
  let (pool1, newId) := pool.newPage (BPage.internal parent maxSize hi)
  let pool2 := pool1.write nodeId (BPage.internal parent maxSize lo)
  match reparentAll pool2 newId hi with
  | none => none
  | some pool3 => some (pool3, newId, lo, hi)

/-- Translation of BPlusTree::InsertIntoParent.  old_node and new_node
are pinned on entry and unpinned here on every path, as in the
source.  Returns the updated pool and root id. -/
def insertIntoParent : Nat → BPool → Int → Nat → Int → Int → Nat →
    Option (BPool × Int)
  | 0, _, _, _, _, _, _ => none
  | fuel + 1, pool, oldId, key, newId, rootId, internalMax =>
    match pool.lookup oldId with
    | none => none
    | some oldPg =>
      if oldPg.IsRootPage then
        -- new internal root via NewPage; root_page_id_ is updated by
        -- the NewPage output parameter, then persisted
        let rootEntries : List (Nat × Int) := [(0, oldId), (key, newId)]
        let (pool1, newRootId) :=
          pool.newPage (BPage.internal INVALID_PAGE_ID internalMax rootEntries)
        let pool2 := pool1.write oldId (oldPg.setParent newRootId)
        let pool3 :=
          match pool2.lookup newId with
          | none => pool2
          | some npg => pool2.write newId (npg.setParent newRootId)
        let pool4 := updateRootPageId pool3
        let pool5 := pool4.unpin oldId true
        let pool6 := pool5.unpin newId true
        let pool7 := pool6.unpin newRootId true
        some (pool7, newRootId)
      else
        match pool.fetch oldPg.GetParentPageId with
        | none => none
        | some (_pool1, BPage.leaf _ _ _ _) => none  -- internal cast of a leaf page
        | some (pool1, BPage.internal pparent pmax pentries) =>
          let parentId := oldPg.GetParentPageId
          if pentries.length < pmax then
            let pentries1 := insertNodeAfter oldId key newId pentries
            let pool2 := pool1.write parentId (BPage.internal pparent pmax pentries1)
            let pool3 :=
              match pool2.lookup newId with
              | none => pool2
              | some npg => pool2.write newId (npg.setParent parentId)
            let pool4 := pool3.unpin oldId true
            let pool5 := pool4.unpin newId true
            some (pool5.unpin parentId true, rootId)
          else
            match splitInternal pool1 parentId pparent pmax pentries with
            | none => none
            | some (pool2, rightId, _lo, hi) =>
              match hi.head? with
              | none => none
              | some (rightKey0, _) =>
                let intoLeft := key < rightKey0
                let pool3 :=
                  if intoLeft then
                    match pool2.lookup parentId with
                    | some (BPage.internal pp pm pe) =>
                      (pool2.write parentId
                        (BPage.internal pp pm (insertNodeAfter oldId key newId pe)))
                    | _ => pool2
                  else
                    match pool2.lookup rightId with
                    | some (BPage.internal pp pm pe) =>
                      (pool2.write rightId
                        (BPage.internal pp pm (insertNodeAfter oldId key newId pe)))
                    | _ => pool2
                let pool4 :=
                  match pool3.lookup newId with
                  | none => pool3
                  | some npg =>
                    pool3.write newId (npg.setParent (if intoLeft then parentId else rightId))
                let pool5 := pool4.unpin oldId true
                let pool6 := pool5.unpin newId true
                insertIntoParent fuel pool6 parentId rightKey0 rightId rootId internalMax

/-- Descent loop of BPlusTree::InsertIntoLeaf (and Remove): while the
node is not a leaf, look the key up in the internal page, unpin the
node clean, fetch the child.  The fetched child is dereferenced by the
next loop test, so a nullptr child is undefined behaviour (none). -/
def findLeafLoop : Nat → BPool → Int → BPage → Nat → Option (BPool × Int)
  | 0, _, _, _, _ => none
  | fuel + 1, pool, pid, pg, k =>
    match pg with
    | BPage.leaf _ _ _ _ => some (pool, pid)
    | BPage.internal _ _ entries =>
      let child := internalLookup entries k
      let pool1 := pool.unpin pid false
      match pool1.fetch child with
      | none => none
      | some (pool2, cpg) => findLeafLoop fuel pool2 child cpg k

/-- Translation of BPlusTree::InsertIntoLeaf.  Notably: the duplicate
check happens only in the leaf-has-room branch (the split branch never
checks for a duplicate), and the duplicate-return path does not unpin
the leaf. -/
def InsertIntoLeaf (t : BTree) (k v : Nat) : Option (Bool × BTree) :=
  match t.pool.fetch t.rootId with
  | none => none  -- assert(node->IsRootPage()) dereferences nullptr
  | some (pool, rootPg) =>
    match findLeafLoop 512 pool t.rootId rootPg k with
    | none => none
    | some (pool1, leafId) =>
      match pool1.lookup leafId with
      | some (BPage.leaf parent maxSize entries next) =>
        if entries.length < maxSize then
          match leafLookup entries k with
          | some _ => some (false, { t with pool := pool1 })
          | none =>
            let pool2 := pool1.write leafId
              (BPage.leaf parent maxSize (leafInsert k v entries) next)
            let pool3 := pool2.unpin leafId true
            some (true, { t with pool := pool3 })
        else
          let (pool2, newId, _lo, hi) := splitLeaf pool1 leafId parent maxSize entries next
          match hi.head? with
          | none => none
          | some (hiKey0, _) =>
            let pool3 :=
              if k < hiKey0 then
                match pool2.lookup leafId with
                | some (BPage.leaf p m e n) =>
                  pool2.write leafId (BPage.leaf p m (leafInsert k v e) n)
                | _ => pool2
              else
                match pool2.lookup newId with
                | some (BPage.leaf p m e n) =>
                  pool2.write newId (BPage.leaf p m (leafInsert k v e) n)
                | _ => pool2
            match insertIntoParent 512 pool3 leafId hiKey0 newId t.rootId t.internalMax with
            | none => none
            | some (pool4, rootId1) =>
              some (true, { t with pool := pool4, rootId := rootId1 })
      | _ => none  -- leaf cast of an internal page

/-- Translation of BPlusTree::StartNewTree: NewPage the root leaf,
record the root id in the header page, insert the entry.  The source
never unpins the new root. -/
def StartNewTree (t : BTree) (k v : Nat) (leafMax : Nat) : BTree :=
  let (pool1, rootId) :=
    t.pool.newPage (BPage.leaf INVALID_PAGE_ID leafMax [(k, v)] INVALID_PAGE_ID)
  let pool2 := updateRootPageId pool1
  { t with pool := pool2, rootId := rootId }

/-- Translation of BPlusTree::Insert. -/
def Insert (t : BTree) (k v : Nat) (leafMax : Nat) : Option (Bool × BTree) :=
  if t.rootId = INVALID_PAGE_ID then
    some (true, StartNewTree t k v leafMax)
  else
    InsertIntoLeaf t k v

/-- Body of the GetValue descent loop as written in the source: the
loop runs while node->IsLeafPage() is TRUE, so its body casts a leaf
page to an internal page (type confusion, none), and the code after
the loop casts a non-leaf page to a leaf page (type confusion, none). -/
def getValueLoopCode : Nat → BPool → BPage → Nat → Option (Bool × List Nat × BPool)
  | 0, _, _, _ => none
  | _fuel + 1, _pool, BPage.leaf _ _ _ _, _k =>
    -- while (node->IsLeafPage()) taken: InternalPage::Lookup on a leaf
    none
  | _fuel + 1, _pool, BPage.internal _ _ _, _k =>
    -- loop exited immediately: LeafPage::Lookup on an internal page
    none

/-- Translation of BPlusTree::GetValue as written in the source (with
the inverted loop condition). -/
def GetValueCode (t : BTree) (k : Nat) : Option (Bool × List Nat × BPool) :=
  if t.rootId = INVALID_PAGE_ID then some (false, [], t.pool)
  else
    match t.pool.fetch t.rootId with
    | none => some (false, [], t.pool)
    | some (pool, node) => getValueLoopCode 512 pool node k

/-- Modelled from the spec (section 4.5.1), the intended GetValue:
starting at the root, repeatedly internal-lookup and descend, unpinning
each level clean, until a leaf; then leaf lookup; unpin the leaf clean;
return true iff the key exists, appending the value to the result. -/
def getValueSpecLoop : Nat → BPool → Int → BPage → Nat → Option (Bool × List Nat × BPool)
  | 0, _, _, _, _ => none
  | fuel + 1, pool, pid, pg, k =>
    match pg with
    | BPage.leaf _ _ entries _ =>
      let pool1 := pool.unpin pid false
      match leafLookup entries k with
      | some v => some (true, [v], pool1)
      | none => some (false, [], pool1)
    | BPage.internal _ _ entries =>
      let child := internalLookup entries k
      let pool1 := pool.unpin pid false
      match pool1.fetch child with
      | none => some (false, [], pool1)
      | some (pool2, cpg) => getValueSpecLoop fuel pool2 child cpg k

/-- Modelled from the spec: GetValue with the descend-until-leaf loop
the spec prescribes. -/
def GetValueSpec (t : BTree) (k : Nat) : Option (Bool × List Nat × BPool) :=
  if t.rootId = INVALID_PAGE_ID then some (false, [], t.pool)
  else
    match t.pool.fetch t.rootId with
    | none => some (false, [], t.pool)
    | some (pool, node) => getValueSpecLoop 512 pool t.rootId node k

/-- Leftmost-leaf descent (spec section 4.5.4), used as the observer
for full traversals. -/
def leftmostLeaf : Nat → BPool → Int → Option Int
  | 0, _, _ => none
  | fuel + 1, pool, pid =>
    match pool.lookup pid with
    | some (BPage.leaf _ _ _ _) => some pid
    | some (BPage.internal _ _ ((_, c0) :: _)) => leftmostLeaf fuel pool c0
    | _ => none

/-- Keys along the leaf sibling chain starting at a leaf page. -/
def chainKeys : Nat → BPool → Int → Option (List Nat)
  | 0, _, _ => none
  | fuel + 1, pool, pid =>
    if pid = INVALID_PAGE_ID then some []
    else
      match pool.lookup pid with
      | some (BPage.leaf _ _ entries next) =>
        match chainKeys fuel pool next with
        | none => none
        | some ks => some (entries.map Prod.fst ++ ks)
      | _ => none

/-- Full key traversal of the tree: leftmost leaf, then the sibling
chain. -/
def traversal (t : BTree) : Option (List Nat) :=
  if t.rootId = INVALID_PAGE_ID then some []
  else
    match leftmostLeaf 512 t.pool t.rootId with
    | none => none
    | some pid => chainKeys 512 t.pool pid

/-! ## Index iterator (IndexIterator implementation in
src/project/src/include/index/index_iterator.h)

The iterator holds a leaf page pointer (Option: nullptr possible, as
the default-constructed iterators returned by the Begin stubs show) and
the current index.  The leaf page is modelled by its size header field,
next_page_id, and the fixed item array of the page (arr), of which the
first size entries are live; GetItem reads the array at the index. -/

structure ILeaf where
  size : Nat
  nextId : Int
  arr : List (Nat × Nat)
deriving Repr, DecidableEq

/-- GetItem(i) reads the page's item array at index i. -/
def ILeaf.GetItem (l : ILeaf) (i : Nat) : Nat × Nat :=
  l.arr.getD i (0, 0)

structure IndexIterator where
  leaf : Option ILeaf
  index : Nat
deriving Repr, DecidableEq

namespace IndexIterator

/-- Translation of IndexIterator::isEnd: (leaf_ != nullptr && index_ ==
leaf_->GetSize()) && (leaf_->GetNextPageId() == INVALID_PAGE_ID); the
short-circuit of && keeps the nullptr case at false. -/
def isEnd (it : IndexIterator) : Bool :=
  match it.leaf with
  | none => false
  | some l => it.index = l.size ∧ l.nextId = INVALID_PAGE_ID

/-- Translation of IndexIterator::operator*: throw std::out_of_range at
the end position (Except.error), otherwise return GetItem(index_).
Dereferencing through a null leaf pointer is undefined behaviour
(none). -/
def deref (it : IndexIterator) : Option (Except String (Nat × Nat)) :=
  if it.isEnd then some (Except.error "IndexIterator: out of range")
  else
    match it.leaf with
    | none => none
    | some l => some (Except.ok (l.GetItem it.index))

end IndexIterator

/-! ## Concrete states used by the theorems -/

/-- A tree whose root is a single leaf holding keys 1 and 2, with room
to spare (max_size 4). -/
def exRoomLeafTree : BTree :=
  { pool := { pages := [(1, BPage.leaf INVALID_PAGE_ID 4 [(1, 10), (2, 20)] INVALID_PAGE_ID)]
              pins := [], nextId := 2 }
    rootId := 1, internalMax := 4 }

/-- A tree whose root is a single full leaf (size = max_size = 2)
holding keys 1 and 2. -/
def exFullLeafTree : BTree :=
  { pool := { pages := [(1, BPage.leaf INVALID_PAGE_ID 2 [(1, 10), (2, 20)] INVALID_PAGE_ID)]
              pins := [], nextId := 2 }
    rootId := 1, internalMax := 4 }

/-- A two-level tree: internal root over two leaves. -/
def exTwoLevelTree : BTree :=
  { pool := { pages := [(3, BPage.internal INVALID_PAGE_ID 4 [(0, 1), (5, 2)]),
                        (1, BPage.leaf 3 4 [(1, 10), (2, 20)] 2),
                        (2, BPage.leaf 3 4 [(5, 50), (7, 70)] INVALID_PAGE_ID)]
              pins := [], nextId := 4 }
    rootId := 3, internalMax := 4 }

/-- A wait queue holding a single granted shared request of
transaction 0. -/
def exSharedQueue : Waiting :=
  { list := [{ txnId := 0, mode := LockMode.SHARED, granted := true }]
    oldest := 0, exclusiveCnt := 0 }

/-- The insert sequence of the E1 sample test (bucket size 2, keys 1..9
with distinct values). -/
def e1Inserts : List (Nat × Nat) :=
  [(1, 101), (2, 102), (3, 103), (4, 104), (5, 105), (6, 106), (7, 107), (8, 108), (9, 109)]

/-- Insert sequence exhibiting the stale-directory-alias bug of the
extendible hash (bucket size 2): after the final doubling the directory
slot for key 11 is left null while the entry (11, 111) sits in the new
split bucket. -/
def c5Inserts : List (Nat × Nat) :=
  [(1, 101), (2, 102), (4, 104), (6, 106), (5, 105), (13, 113), (25, 125), (11, 111)]

end Cmudb

namespace Cmudb

/-! ## Theorems -/

theorem removeRequest_not_mem (txnId : Nat) :
    ∀ l : List Request, (∀ r ∈ l, r.txnId ≠ txnId) →
      (removeRequest txnId l).1 = none := by
  intro l
  induction l with
  | nil => intro _; rfl
  | cons r rest ih =>
    intro h
    have hr : r.txnId ≠ txnId := h r (by simp)
    have hrest : (removeRequest txnId rest).1 = none :=
      ih (fun q hq => h q (by simp [hq]))
    simp only [removeRequest, if_neg hr]
    rw [show removeRequest txnId rest =
        ((removeRequest txnId rest).1, (removeRequest txnId rest).2) from rfl, hrest]

/-- C1: for every non-empty B+ tree, GetValue is claimed to descend to
a leaf and answer the leaf lookup; in the source the descent loop runs
while the node IS a leaf, so on a leaf root the body reinterprets the
leaf as an internal page, and on an internal root the code past the
loop reinterprets the internal page as a leaf — type confusion (none)
in both cases, while the spec's descend-until-leaf GetValue finds the
stored value and restores all pins. -/
theorem C1_getValue_code_type_confusion :
    GetValueCode exRoomLeafTree 1 = none ∧
    GetValueCode exTwoLevelTree 7 = none ∧
    GetValueSpec exRoomLeafTree 1 =
      some (true, [10], { pages := exRoomLeafTree.pool.pages, pins := [], nextId := 2 }) ∧
    GetValueSpec exTwoLevelTree 7 =
      some (true, [70], { pages := exTwoLevelTree.pool.pages, pins := [], nextId := 4 }) := by
  decide

/-- C2: Insert of a key already present is claimed to return false and
leave the tree unchanged regardless of leaf occupancy; when the leaf is
full the source skips the duplicate check, splits the leaf, stores a
second copy of the key and returns true, changing the traversal from
[1, 2] to [1, 1, 2]. -/
theorem C2_duplicate_insert_into_full_leaf_succeeds :
    traversal exFullLeafTree = some [1, 2] ∧
    (InsertIntoLeaf exFullLeafTree 1 99).map (fun r => (r.1, traversal r.2)) =
      some (true, some [1, 1, 2]) := by
  decide

/-- C3: under strict 2PL, Unlock of a COMMITTED transaction is claimed
to proceed and return true; the source's precondition (state !=
COMMITTED || state != ABORTED) is a tautology, so both revisions abort
the committed transaction and return false, leaving the queue
untouched. -/
theorem C3_strict_unlock_aborts_committed_txn :
    UnlockV1 true TransactionState.COMMITTED 0 exSharedQueue =
      (false, TransactionState.ABORTED, exSharedQueue) ∧
    UnlockV2 true TransactionState.COMMITTED 0 exSharedQueue =
      (false, TransactionState.ABORTED, exSharedQueue) ∧
    UnlockV1 true TransactionState.ABORTED 0 exSharedQueue =
      (false, TransactionState.ABORTED, exSharedQueue) := by
  decide

/-- C4 counterexample: the claim says a GROWING transaction is aborted
only if the queue holds at least one exclusive request; in the second
revision of LockShared, transaction 1 is aborted although the queue
holds a single granted shared request and no exclusive one. -/
theorem C4_counterexample_younger_shared_aborted :
    LockSharedAdmitV2 1 (some exSharedQueue) = Admission.aborted ∧
    countExclusive exSharedQueue.list = 0 := by
  decide

/-- C4 amended: wait-die admission of LockShared for a GROWING
transaction.  In the first revision the transaction is aborted iff the
queue exists, contains an exclusive request (cached as exclusive_cnt)
and txn.id > oldest; in the second revision it is aborted iff the queue
exists and txn.id > oldest, regardless of the queued modes; in every
non-aborting case the request is appended and oldest becomes
min(oldest, txn.id). -/
theorem C4_wait_die_admission (txnId : Nat) :
    (LockSharedAdmitV1 txnId none =
       Admission.queued { list := [{ txnId := txnId, mode := LockMode.SHARED, granted := false }],
                          oldest := txnId, exclusiveCnt := 0 }) ∧
    (LockSharedAdmitV2 txnId none =
       Admission.queued { list := [{ txnId := txnId, mode := LockMode.SHARED, granted := false }],
                          oldest := txnId, exclusiveCnt := 0 }) ∧
    (∀ w : Waiting, w.exclusiveCnt = countExclusive w.list →
      ((LockSharedAdmitV1 txnId (some w) = Admission.aborted ↔
          countExclusive w.list ≠ 0 ∧ txnId > w.oldest) ∧
       (¬ (countExclusive w.list ≠ 0 ∧ txnId > w.oldest) →
          LockSharedAdmitV1 txnId (some w) =
            Admission.queued
              { list := w.list ++ [{ txnId := txnId, mode := LockMode.SHARED, granted := false }]
                oldest := min w.oldest txnId, exclusiveCnt := w.exclusiveCnt }))) ∧
    (∀ w : Waiting,
      ((LockSharedAdmitV2 txnId (some w) = Admission.aborted ↔ txnId > w.oldest) ∧
       (¬ txnId > w.oldest →
          LockSharedAdmitV2 txnId (some w) =
            Admission.queued
              { list := w.list ++ [{ txnId := txnId, mode := LockMode.SHARED, granted := false }]
                oldest := min w.oldest txnId, exclusiveCnt := w.exclusiveCnt }))) := by
  refine ⟨rfl, rfl, ?_, ?_⟩
  · intro w hinv
    constructor
    · rw [← hinv]
      constructor
      · intro h
        by_contra hc
        simp only [LockSharedAdmitV1] at h
        rw [if_neg hc] at h
        split at h <;> simp at h
      · intro hc
        simp only [LockSharedAdmitV1, if_pos hc]
    · intro hc
      rw [← hinv] at hc
      simp only [LockSharedAdmitV1, if_neg hc]
      rcases Nat.lt_or_ge txnId w.oldest with hlt | hge
      · rw [if_pos hlt]
        have : min w.oldest txnId = txnId := by omega
        simp [this]
      · rw [if_neg (by omega)]
        have : min w.oldest txnId = w.oldest := by omega
        simp [this]
  · intro w
    constructor
    · constructor
      · intro h
        by_contra hc
        simp only [LockSharedAdmitV2] at h
        rw [if_neg hc] at h
        simp at h
      · intro hc
        simp only [LockSharedAdmitV2, if_pos hc]
    · intro hc
      simp only [LockSharedAdmitV2, if_neg hc]
      have : min w.oldest txnId = txnId := by omega
      simp [this]

/-- C4 amended, witness: transaction 1 is aborted by the first revision
when an exclusive request of transaction 0 is queued, and appended when
only the shared request of transaction 0 is queued. -/
theorem C4_wait_die_admission_witness :
    LockSharedAdmitV1 1
      (some { list := [{ txnId := 0, mode := LockMode.EXCLUSIVE, granted := true }]
              oldest := 0, exclusiveCnt := 1 }) = Admission.aborted ∧
    LockSharedAdmitV1 1 (some exSharedQueue) =
      Admission.queued
        { list := exSharedQueue.list ++ [{ txnId := 1, mode := LockMode.SHARED, granted := false }]
          oldest := 0, exclusiveCnt := 0 } := by
  constructor
  · exact (((C4_wait_die_admission 1).2.2.1
      { list := [{ txnId := 0, mode := LockMode.EXCLUSIVE, granted := true }]
        oldest := 0, exclusiveCnt := 1 } (by decide)).1).mpr (by decide)
  · have h := (((C4_wait_die_admission 1).2.2.1 exSharedQueue (by decide)).2) (by decide)
    simpa using h

/-- C5: the hash table is claimed to find the last inserted value of
every key; with bucket size 2, after inserting keys
1, 2, 4, 6, 5, 13, 25, 11 (every Insert call returning normally), the
doubling copy loop skips the directory slots of the bucket being split
and leaves the slot of key 11 null, so Find(11) fails although the
entry (11, 111) was just stored; sibling keys stay reachable. -/
theorem C5_find_after_insert_fails :
    (EHash.insertAll (EHash.init 2) c5Inserts).map
        (fun s => (s.Find 11, s.Find 1, s.Find 25, s.Find 5, s.Find 13)) =
      some (none, some 101, some 125, some 105, some 113) := by
  decide

/-- C6: global depth is claimed to stay at or above every reachable
local depth, with overflow only at local depth sizeof(size_t)*8 = 64;
the source compares against sizeof(size_t) = 8, so inserting 0 and 256
(equal low 8 bits) with bucket size 1 drives the bucket's local depth
to 8 and attaches an overflow bucket while the global depth is still 0. -/
theorem C6_local_depth_exceeds_global_depth :
    (EHash.insertAll (EHash.init 1) [(0, 1), (256, 2)]).map
        (fun s => (s.GetGlobalDepth, s.GetLocalDepth 0, s.store.map (fun b => b.ov.length))) =
      some (0, 8, [1]) := by
  decide

/-- C7: every FetchPage/NewPage is claimed to be paired with an
UnpinPage on every exit path; on the duplicate-key return of
InsertIntoLeaf the source returns false without unpinning the fetched
leaf, leaving its pin count one above the value before the call. -/
theorem C7_duplicate_return_leaks_pin :
    exRoomLeafTree.pool.pins = [] ∧
    (InsertIntoLeaf exRoomLeafTree 1 99).map (fun r => (r.1, r.2.pool.pins)) =
      some (false, [1]) := by
  decide

/-- C8 counterexample: Insert of an already-present value is claimed to
move it to the MRU end, and Erase to return true iff present; instead,
re-inserting the value that already is the MRU end (state [1, 2], value
2) dereferences a null unique_ptr (pre->next->pre after pre->next
became null), and after Insert 1, 2, 3 followed by one Victim, the
surviving head node 2 carries a pre pointer into the freed node, so
Insert(2) and Erase(2) are a use-after-free rather than the claimed
move / true. -/
theorem C8_counterexample_reinsert_mru_value :
    (LRU.Insert { lst := [1, 2], size := 2, headStale := false } 2 = none ∧
     LRU.Insert { lst := [1, 2], size := 2, headStale := false } 2 ≠
       some { lst := [1, 2], size := 2, headStale := false }) ∧
    (LRU.insertAll LRU.empty [1, 2, 3] =
       some { lst := [1, 2, 3], size := 3, headStale := false } ∧
     LRU.Victim { lst := [1, 2, 3], size := 3, headStale := false } =
       some (some 1, { lst := [2, 3], size := 2, headStale := true }) ∧
     LRU.Insert { lst := [2, 3], size := 2, headStale := true } 2 = none ∧
     LRU.Insert { lst := [2, 3], size := 2, headStale := true } 2 ≠
       some { lst := [3, 2], size := 2, headStale := true } ∧
     LRU.Erase { lst := [2, 3], size := 2, headStale := true } 2 = none) := by
  decide

/-- C8 amended: Insert places a new value at the MRU end (preserving
the head's pre state, a fresh head being clean) and moves an
already-present value to the MRU end provided the value is neither the
current MRU value (null unique_ptr dereference) nor the head left with
a dangling pre pointer by a preceding Victim (use-after-free); Victim
removes and returns values in least-recently-inserted order, returns
false on an empty replacer, and leaves the surviving head's pre pointer
dangling whenever a node survives; Erase returns true iff the value was
present, provided it is neither the MRU value (null dereference) nor a
dangling head (use-after-free); and the concrete E2 scenario holds as
stated. -/
theorem C8_lru_behaviour :
    (∀ (s : LRU) (v : Nat), v ∉ s.lst →
       s.Insert v = some { lst := s.lst ++ [v], size := s.size + 1
                           headStale := if s.lst.isEmpty then false else s.headStale }) ∧
    (∀ (s : LRU) (v : Nat), v ∈ s.lst → ¬ (s.headStale ∧ s.lst.head? = some v) →
       s.lst.getLast? ≠ some v →
       s.Insert v = some { s with lst := s.lst.erase v ++ [v] }) ∧
    (∀ s : LRU, s.size = 0 → s.Victim = some (none, s)) ∧
    (∀ (s : LRU) (x : Nat) (xs : List Nat), s.lst = x :: xs → s.size ≠ 0 →
       s.Victim = some (some x, { lst := xs, size := s.size - 1, headStale := !xs.isEmpty })) ∧
    (∀ (s : LRU) (v : Nat), v ∉ s.lst → s.Erase v = some (false, s)) ∧
    (∀ (s : LRU) (v : Nat), v ∈ s.lst → ¬ (s.headStale ∧ s.lst.head? = some v) →
       s.lst.getLast? ≠ some v →
       s.Erase v = some (true, { s with lst := s.lst.erase v, size := s.size - 1 })) ∧
    (LRU.insertAll LRU.empty [1, 2, 3, 4, 5, 6, 1] =
       some { lst := [2, 3, 4, 5, 6, 1], size := 6, headStale := false }) ∧
    (LRU.Size { lst := [2, 3, 4, 5, 6, 1], size := 6, headStale := false } = 6) ∧
    (LRU.Victim { lst := [2, 3, 4, 5, 6, 1], size := 6, headStale := false } =
       some (some 2, { lst := [3, 4, 5, 6, 1], size := 5, headStale := true })) ∧
    (LRU.Victim { lst := [3, 4, 5, 6, 1], size := 5, headStale := true } =
       some (some 3, { lst := [4, 5, 6, 1], size := 4, headStale := true })) ∧
    (LRU.Victim { lst := [4, 5, 6, 1], size := 4, headStale := true } =
       some (some 4, { lst := [5, 6, 1], size := 3, headStale := true })) ∧
    (LRU.Erase { lst := [5, 6, 1], size := 3, headStale := true } 4 =
       some (false, { lst := [5, 6, 1], size := 3, headStale := true })) ∧
    (LRU.Erase { lst := [5, 6, 1], size := 3, headStale := true } 6 =
       some (true, { lst := [5, 1], size := 2, headStale := true })) ∧
    (LRU.Size { lst := [5, 1], size := 2, headStale := true } = 2) ∧
    (LRU.Victim { lst := [5, 1], size := 2, headStale := true } =
       some (some 5, { lst := [1], size := 1, headStale := true })) ∧
    (LRU.Victim { lst := [1], size := 1, headStale := true } =
       some (some 1, { lst := [], size := 0, headStale := false })) := by
  refine ⟨?_, ?_, ?_, ?_, ?_, ?_, by decide, by decide, by decide, by decide,
          by decide, by decide, by decide, by decide, by decide, by decide⟩
  · intro s v hv
    simp [LRU.Insert, hv]
  · intro s v hv hstale hlast
    simp [LRU.Insert, hv, hstale, hlast]
  · intro s h
    simp [LRU.Victim, h]
  · intro s x xs hl h
    simp [LRU.Victim, h, hl]
  · intro s v hv
    simp [LRU.Erase, hv]
  · intro s v hv hstale hlast
    simp [LRU.Erase, hv, hstale, hlast]

/-- C8 amended, witness: touching the non-MRU value 1 of a clean state
[1, 2] moves it to the MRU end; touching the middle value 3 of a
stale-head state [2, 3, 4] also succeeds; erasing the non-MRU value 1
of a clean [1, 2] and the middle value 3 of a stale-head [2, 3, 4]
succeed; an empty replacer yields no victim; a victim on [7] empties
the replacer cleanly; a new value is appended. -/
theorem C8_lru_behaviour_witness :
    LRU.Insert { lst := [1, 2], size := 2, headStale := false } 1 =
      some { lst := [2, 1], size := 2, headStale := false } ∧
    LRU.Insert { lst := [2, 3, 4], size := 3, headStale := true } 3 =
      some { lst := [2, 4, 3], size := 3, headStale := true } ∧
    LRU.Erase { lst := [1, 2], size := 2, headStale := false } 1 =
      some (true, { lst := [2], size := 1, headStale := false }) ∧
    LRU.Erase { lst := [2, 3, 4], size := 3, headStale := true } 3 =
      some (true, { lst := [2, 4], size := 2, headStale := true }) ∧
    LRU.Victim { lst := [], size := 0, headStale := false } =
      some (none, { lst := [], size := 0, headStale := false }) ∧
    LRU.Victim { lst := [7], size := 1, headStale := false } =
      some (some 7, { lst := [], size := 0, headStale := false }) ∧
    LRU.Insert { lst := [2], size := 1, headStale := false } 9 =
      some { lst := [2, 9], size := 2, headStale := false } ∧
    LRU.Erase { lst := [2, 9], size := 2, headStale := false } 7 =
      some (false, { lst := [2, 9], size := 2, headStale := false }) := by
  refine ⟨?_, ?_, ?_, ?_, ?_, ?_, ?_, ?_⟩
  · exact C8_lru_behaviour.2.1 { lst := [1, 2], size := 2, headStale := false } 1
      (by decide) (by decide) (by decide)
  · exact C8_lru_behaviour.2.1 { lst := [2, 3, 4], size := 3, headStale := true } 3
      (by decide) (by decide) (by decide)
  · exact C8_lru_behaviour.2.2.2.2.2.1 { lst := [1, 2], size := 2, headStale := false } 1
      (by decide) (by decide) (by decide)
  · exact C8_lru_behaviour.2.2.2.2.2.1 { lst := [2, 3, 4], size := 3, headStale := true } 3
      (by decide) (by decide) (by decide)
  · exact C8_lru_behaviour.2.2.1 { lst := [], size := 0, headStale := false } (by decide)
  · exact C8_lru_behaviour.2.2.2.1 { lst := [7], size := 1, headStale := false } 7 []
      (by decide) (by decide)
  · exact C8_lru_behaviour.1 { lst := [2], size := 1, headStale := false } 9 (by decide)
  · exact C8_lru_behaviour.2.2.2.2.1 { lst := [2, 9], size := 2, headStale := false } 7 (by decide)

/-- C9: operator* throws std::out_of_range exactly at the end position
(index equal to the leaf size with next_page_id INVALID) and otherwise
returns the item at the current index; isEnd is that conjunction. -/
theorem C9_iterator_deref (it : IndexIterator) (l : ILeaf) (h : it.leaf = some l) :
    (it.isEnd = true ↔ it.index = l.size ∧ l.nextId = INVALID_PAGE_ID) ∧
    (it.isEnd = true → it.deref = some (Except.error "IndexIterator: out of range")) ∧
    (it.isEnd = false → it.deref = some (Except.ok (l.GetItem it.index))) := by
  refine ⟨?_, ?_, ?_⟩
  · simp [IndexIterator.isEnd, h]
  · intro hEnd
    simp [IndexIterator.deref, hEnd]
  · intro hEnd
    simp [IndexIterator.deref, hEnd, h]

/-- C9 witness: at index 0 of a two-entry last leaf the iterator is not
at the end and yields the first item; at index 2 it is at the end and
dereferencing yields the out-of-range error. -/
theorem C9_iterator_deref_witness :
    IndexIterator.deref { leaf := some { size := 2, nextId := -1, arr := [(1, 10), (2, 20)] }, index := 0 } =
      some (Except.ok (1, 10)) ∧
    IndexIterator.deref { leaf := some { size := 2, nextId := -1, arr := [(1, 10), (2, 20)] }, index := 2 } =
      some (Except.error "IndexIterator: out of range") := by
  constructor
  · exact (C9_iterator_deref
      { leaf := some { size := 2, nextId := -1, arr := [(1, 10), (2, 20)] }, index := 0 }
      { size := 2, nextId := -1, arr := [(1, 10), (2, 20)] } rfl).2.2 (by decide)
  · exact (C9_iterator_deref
      { leaf := some { size := 2, nextId := -1, arr := [(1, 10), (2, 20)] }, index := 2 }
      { size := 2, nextId := -1, arr := [(1, 10), (2, 20)] } rfl).2.1 (by decide)

/-- C10: on a non-strict lock manager, Unlock by a GROWING transaction
that holds no request in the existing wait queue still flips the
transaction to SHRINKING, removes nothing, and returns true (both
revisions). -/
theorem C10_noop_unlock_reports_success (txnId : Nat) (w : Waiting)
    (h : ∀ r ∈ w.list, r.txnId ≠ txnId) :
    UnlockV1 false TransactionState.GROWING txnId w =
      (true, TransactionState.SHRINKING, w) ∧
    UnlockV2 false TransactionState.GROWING txnId w =
      (true, TransactionState.SHRINKING, w) := by
  have hrem := removeRequest_not_mem txnId w.list h
  constructor
  · simp [UnlockV1, hrem]
  · simp [UnlockV2, hrem]

/-- C10 witness: transaction 1 unlocking a rid whose queue only holds
transaction 0's shared request. -/
theorem C10_noop_unlock_witness :
    UnlockV1 false TransactionState.GROWING 1 exSharedQueue =
      (true, TransactionState.SHRINKING, exSharedQueue) ∧
    UnlockV2 false TransactionState.GROWING 1 exSharedQueue =
      (true, TransactionState.SHRINKING, exSharedQueue) :=
  C10_noop_unlock_reports_success 1 exSharedQueue (by decide)

end Cmudb
